import Mathlib

/-!
Shallow embedding of `src/ThermalViscosityInterface.cpp`: the
conductivity-to-viscosity lookup table with its two lookup policies
(`lookupViscosity` throws, `getViscosity` returns a sentinel), the
signal-conditioning affine transform applied in `getDataFromSerial`,
the matrix reshaper `formatData`, the exponential-decay reducer
`curveFitting`, and the summarizer `averageAndDisplay`.

C++ `double` arithmetic is idealized as real arithmetic (`ℝ`) in the
numeric pipeline and as exact rational arithmetic (`ℚ`) in the lookup
table, whose keys and values are exact decimal literals; a C++ `throw`
is modelled as `Except.error` carrying the thrown message.
-/

/-- The global lookup table `thermal_to_viscosity` from the source, as an
association list holding the ten key-value pairs in declaration order
(`0.1 ↦ 1.0`, …, `1.0 ↦ 1.9`, written as exact fractions). -/
def thermal_to_viscosity : List (ℚ × ℚ) :=
  [(1/10, 1), (2/10, 11/10), (3/10, 12/10), (4/10, 13/10),
   (5/10, 14/10), (6/10, 15/10), (7/10, 16/10), (8/10, 17/10),
   (9/10, 18/10), (1, 19/10)]

/-- The `std::map::find` step shared by both lookup functions: search the
association list for an exactly matching key. -/
def findEntry (key : ℚ) : List (ℚ × ℚ) → Option ℚ
  | [] => none
  | p :: ps => if p.1 = key then some p.2 else findEntry key ps

/-- `lookupViscosity`: if the key is present return the stored viscosity,
otherwise throw `std::invalid_argument("Invalid thermal conductivity value")`. -/
def lookupViscosity (thermal_conductivity : ℚ) : Except String ℚ :=
  match findEntry thermal_conductivity thermal_to_viscosity with
  | some v => Except.ok v
  | none => Except.error "Invalid thermal conductivity value"

/-- `getViscosity`: if the key is present return the stored viscosity,
otherwise return the sentinel value `-1.0`. -/
def getViscosity (thermal_conductivity : ℚ) : ℚ :=
  match findEntry thermal_conductivity thermal_to_viscosity with
  | some v => v
  | none => -1

/-- `SignalConfig`: configuration for the curve fitting. -/
structure SignalConfig where
  decayFactor : ℝ

/-- `SignalConditioning`: gain and offset for signal conditioning. -/
structure SignalConditioning where
  gain : ℝ
  offset : ℝ

/-- The conditioning applied to each value read in `getDataFromSerial`:
`value = value * conditioning.gain + conditioning.offset`. -/
def conditionSample (conditioning : SignalConditioning) (value : ℝ) : ℝ :=
  value * conditioning.gain + conditioning.offset

/-- A dynamically sized real matrix (`Eigen::MatrixXd`): a row count, a
column count and an entry function.  The embedded code only ever reads
entries with `i < rows` and `j < cols`. -/
structure MatrixXd where
  rows : ℕ
  cols : ℕ
  entry : ℕ → ℕ → ℝ

/-- `formatData`: throws when the raw data is empty; otherwise computes
`size = std::sqrt(raw_data.size())` truncated to `int` (i.e. `⌊√N⌋`,
`Nat.sqrt`) and fills a `size × size` matrix row-major with a running
index `k`, so `formatted_data(i, j) = raw_data[i * size + j]`. -/
def formatData (raw_data : List ℝ) : Except String MatrixXd :=
  if raw_data.length = 0 then Except.error "Raw data is empty"
  else
    let size := Nat.sqrt raw_data.length
    Except.ok ⟨size, size, fun i j => raw_data.getD (i * size + j) 0⟩

/-- The inner loop of `curveFitting` on column `i`: after `n` iterations
the accumulator holds `Σ_{j < n} data(j, i) * exp(-decayFactor * j)`. -/
noncomputable def colSum (data : MatrixXd) (decayFactor : ℝ) (i : ℕ) : ℕ → ℝ
  | 0 => 0
  | n + 1 => colSum data decayFactor i n + data.entry n i * Real.exp (-decayFactor * n)

/-- What the outer loop of `curveFitting` stores at position `i` of the
result vector: `result(i) = sum / data.rows()`. -/
noncomputable def reduceEntry (data : MatrixXd) (decayFactor : ℝ) (i : ℕ) : ℝ :=
  colSum data decayFactor i data.rows / data.rows

/-- `curveFitting`: throws on an empty matrix; otherwise produces a result
vector of length `data.cols()` whose `i`-th entry is the decay-weighted
sum down column `i` divided by the row count. -/
noncomputable def curveFitting (data : MatrixXd) (config : SignalConfig) :
    Except String (List ℝ) :=
  if data.rows = 0 ∨ data.cols = 0 then Except.error "Data matrix is empty"
  else Except.ok ((List.range data.cols).map (reduceEntry data config.decayFactor))

/-- `averageAndDisplay`: the value it computes and prints,
`data.sum() / data.size()`.  The source performs this division
unconditionally: there is no emptiness check. -/
noncomputable def averageAndDisplay (data : List ℝ) : ℝ :=
  data.sum / data.length

/-- The Summarizer contract as the specification words it, for comparison
with `averageAndDisplay`: fail with `EmptyVector` when the length is 0,
otherwise return `sum / length`. -/
noncomputable def averageSpecContract (data : List ℝ) : Except String ℝ :=
  if data.length = 0 then Except.error "EmptyVector"
  else Except.ok (data.sum / data.length)

/-- `A` with `δ` added to the single entry at row `r`, column `c`. -/
def bump (A : MatrixXd) (r c : ℕ) (δ : ℝ) : MatrixXd :=
  ⟨A.rows, A.cols, fun j i => if j = r ∧ i = c then A.entry j i + δ else A.entry j i⟩

@[simp] lemma bump_rows (A : MatrixXd) (r c : ℕ) (δ : ℝ) : (bump A r c δ).rows = A.rows := rfl

@[simp] lemma bump_cols (A : MatrixXd) (r c : ℕ) (δ : ℝ) : (bump A r c δ).cols = A.cols := rfl

lemma colSum_zero (A : MatrixXd) (d : ℝ) (i : ℕ) : colSum A d i 0 = 0 := rfl

lemma colSum_succ (A : MatrixXd) (d : ℝ) (i n : ℕ) :
    colSum A d i (n + 1) = colSum A d i n + A.entry n i * Real.exp (-d * n) := rfl

/-- The running accumulator of the inner loop equals the closed-form sum. -/
lemma colSum_eq_sum (A : MatrixXd) (d : ℝ) (i n : ℕ) :
    colSum A d i n = ∑ j ∈ Finset.range n, A.entry j i * Real.exp (-d * j) := by
  induction n with
  | zero => simp [colSum_zero]
  | succ n ih => rw [colSum_succ, ih, Finset.sum_range_succ]

lemma getD_map_range {f : ℕ → ℝ} {n i : ℕ} (h : i < n) :
    ((List.range n).map f).getD i 0 = f i := by
  rw [List.getD_eq_getElem?_getD, List.getElem?_map, List.getElem?_range h]
  rfl

/-- On a matrix with at least one row and one column, `curveFitting` takes
its non-throwing branch and returns the mapped result vector. -/
lemma curveFitting_ok (A : MatrixXd) (config : SignalConfig)
    (hr : 0 < A.rows) (hc : 0 < A.cols) :
    curveFitting A config =
      Except.ok ((List.range A.cols).map (reduceEntry A config.decayFactor)) := by
  rw [curveFitting, if_neg (by omega : ¬(A.rows = 0 ∨ A.cols = 0))]

lemma findEntry_eq_none {key : ℚ} {l : List (ℚ × ℚ)} :
    findEntry key l = none ↔ ∀ p ∈ l, p.1 ≠ key := by
  induction l with
  | nil => simp [findEntry]
  | cons p ps ih =>
    by_cases h : p.1 = key
    · simp [findEntry, h]
    · simp [findEntry, h, ih]

lemma findEntry_some_mem {key : ℚ} {l : List (ℚ × ℚ)} {v : ℚ}
    (h : findEntry key l = some v) : ∃ p ∈ l, p.1 = key ∧ p.2 = v := by
  induction l with
  | nil => simp [findEntry] at h
  | cons p ps ih =>
    by_cases hp : p.1 = key
    · rw [findEntry, if_pos hp] at h
      exact ⟨p, List.mem_cons_self p ps, hp, (Option.some.injEq _ _).mp h⟩
    · rw [findEntry, if_neg hp] at h
      obtain ⟨q, hq, hqk, hqv⟩ := ih h
      exact ⟨q, List.mem_cons_of_mem p hq, hqk, hqv⟩

/-- C1: for every matrix with at least one row and one column and every
decay factor, `curveFitting` succeeds with a vector of length
`data.cols()` whose `i`-th entry is
`(Σ_{j < rows} data(j, i) * exp(-decayFactor * j)) / rows` — normalized
by the row count, not by the sum of the weights. -/
theorem curveFitting_matches_contract (A : MatrixXd) (config : SignalConfig)
    (hr : 1 ≤ A.rows) (hc : 1 ≤ A.cols) :
    ∃ v, curveFitting A config = Except.ok v ∧ v.length = A.cols ∧
      ∀ i, i < A.cols →
        v.getD i 0 =
          (∑ j ∈ Finset.range A.rows,
              A.entry j i * Real.exp (-config.decayFactor * j)) / A.rows := by
  refine ⟨(List.range A.cols).map (reduceEntry A config.decayFactor),
    curveFitting_ok A config (by omega) (by omega), by simp, ?_⟩
  intro i hi
  rw [getD_map_range hi, reduceEntry, colSum_eq_sum]

theorem curveFitting_matches_contract_witness :
    ∃ v, curveFitting ⟨1, 1, fun _ _ => 2⟩ ⟨0⟩ = Except.ok v ∧ v.length = 1 ∧
      ∀ i, i < 1 →
        v.getD i 0 =
          (∑ j ∈ Finset.range 1,
              (2 : ℝ) * Real.exp (-(0 : ℝ) * j)) / ((1 : ℕ) : ℝ) :=
  curveFitting_matches_contract ⟨1, 1, fun _ _ => 2⟩ ⟨0⟩ Nat.le.refl Nat.le.refl

/-- C4: with decay factor 0 every weight is `exp 0 = 1`, so the reduced
vector is the vector of unweighted column means. -/
theorem curveFitting_zero_decay_is_mean (A : MatrixXd)
    (hr : 1 ≤ A.rows) (hc : 1 ≤ A.cols) :
    ∃ v, curveFitting A ⟨0⟩ = Except.ok v ∧ v.length = A.cols ∧
      ∀ i, i < A.cols →
        v.getD i 0 = (∑ j ∈ Finset.range A.rows, A.entry j i) / A.rows := by
  refine ⟨(List.range A.cols).map (reduceEntry A (0 : ℝ)),
    curveFitting_ok A ⟨0⟩ (by omega) (by omega), by simp, ?_⟩
  intro i hi
  rw [getD_map_range hi, reduceEntry, colSum_eq_sum]
  norm_num

theorem curveFitting_zero_decay_is_mean_witness :
    ∃ v, curveFitting ⟨1, 1, fun _ _ => 2⟩ ⟨0⟩ = Except.ok v ∧ v.length = 1 ∧
      ∀ i, i < 1 →
        v.getD i 0 = (∑ _j ∈ Finset.range 1, (2 : ℝ)) / ((1 : ℕ) : ℝ) :=
  curveFitting_zero_decay_is_mean ⟨1, 1, fun _ _ => 2⟩ Nat.le.refl Nat.le.refl

/-- A concrete five-sample input used by witnesses (`size = ⌊√5⌋ = 2`). -/
def rawFive : List ℝ := [1, 2, 3, 4, 5]

/-- C2: on a non-empty input of length `N`, `formatData` returns a square
matrix of dimension `size = ⌊√N⌋` filled row-major (element `k` of the
input lands at row `k / size`, column `k % size`), `size * size ≤ N`
holds, and every matrix entry is read from the first `size * size` input
elements, so any later element is silently dropped. -/
theorem formatData_reshapes (raw : List ℝ) (h : raw ≠ []) :
    ∃ M, formatData raw = Except.ok M ∧
      M.rows = Nat.sqrt raw.length ∧ M.cols = Nat.sqrt raw.length ∧
      M.rows * M.cols ≤ raw.length ∧
      (∀ i j, i < M.rows → j < M.cols →
        M.entry i j = raw.getD (i * M.cols + j) 0) ∧
      (∀ k, k < M.rows * M.cols →
        M.entry (k / M.cols) (k % M.cols) = raw.getD k 0) ∧
      (∀ i j, i < M.rows → j < M.cols →
        M.entry i j = (raw.take (M.rows * M.cols)).getD (i * M.cols + j) 0) := by
  have hlen : raw.length ≠ 0 := fun h0 => h (List.length_eq_zero.mp h0)
  refine ⟨⟨Nat.sqrt raw.length, Nat.sqrt raw.length,
      fun i j => raw.getD (i * Nat.sqrt raw.length + j) 0⟩, ?_, rfl, rfl,
      Nat.sqrt_le _, fun i j _ _ => rfl, ?_, ?_⟩
  · rw [formatData, if_neg hlen]
  · intro k hk
    show raw.getD (k / Nat.sqrt raw.length * Nat.sqrt raw.length
        + k % Nat.sqrt raw.length) 0 = raw.getD k 0
    rw [Nat.mul_comm (k / Nat.sqrt raw.length) (Nat.sqrt raw.length), Nat.div_add_mod]
  · intro i j hi hj
    show raw.getD (i * Nat.sqrt raw.length + j) 0 =
      (raw.take (Nat.sqrt raw.length * Nat.sqrt raw.length)).getD
        (i * Nat.sqrt raw.length + j) 0
    have hlt : i * Nat.sqrt raw.length + j
        < Nat.sqrt raw.length * Nat.sqrt raw.length := by nlinarith
    rw [List.getD_eq_getElem?_getD, List.getD_eq_getElem?_getD,
      List.getElem?_take, if_pos hlt]

theorem formatData_reshapes_witness :
    ∃ M, formatData rawFive = Except.ok M ∧
      M.rows = Nat.sqrt rawFive.length ∧ M.cols = Nat.sqrt rawFive.length ∧
      M.rows * M.cols ≤ rawFive.length ∧
      (∀ i j, i < M.rows → j < M.cols →
        M.entry i j = rawFive.getD (i * M.cols + j) 0) ∧
      (∀ k, k < M.rows * M.cols →
        M.entry (k / M.cols) (k % M.cols) = rawFive.getD k 0) ∧
      (∀ i j, i < M.rows → j < M.cols →
        M.entry i j = (rawFive.take (M.rows * M.cols)).getD (i * M.cols + j) 0) :=
  formatData_reshapes rawFive (by simp [rawFive])

/-- C7: `formatData` on the empty sequence fails with the empty-input
error and produces no matrix. -/
theorem formatData_empty_fails :
    formatData ([] : List ℝ) = Except.error "Raw data is empty" := rfl

/-- C9: the matrix produced by `formatData` from any non-empty input has
at least one row and one column (`⌊√N⌋ ≥ 1` for `N ≥ 1`), so
`curveFitting` applied to it always takes its non-throwing branch: the
empty-matrix error is unreachable in the composed pipeline. -/
theorem formatData_output_never_empty (raw : List ℝ) (config : SignalConfig)
    (h : raw ≠ []) :
    ∃ M, formatData raw = Except.ok M ∧ 1 ≤ M.rows ∧ 1 ≤ M.cols ∧
      ∃ v, curveFitting M config = Except.ok v := by
  have hlen : raw.length ≠ 0 := fun h0 => h (List.length_eq_zero.mp h0)
  have hs : 0 < Nat.sqrt raw.length := Nat.sqrt_pos.mpr (Nat.pos_of_ne_zero hlen)
  refine ⟨⟨Nat.sqrt raw.length, Nat.sqrt raw.length,
      fun i j => raw.getD (i * Nat.sqrt raw.length + j) 0⟩, ?_, hs, hs,
      ⟨_, curveFitting_ok _ config hs hs⟩⟩
  rw [formatData, if_neg hlen]

theorem formatData_output_never_empty_witness :
    ∃ M, formatData rawFive = Except.ok M ∧ 1 ≤ M.rows ∧ 1 ≤ M.cols ∧
      ∃ v, curveFitting M ⟨1⟩ = Except.ok v :=
  formatData_output_never_empty rawFive ⟨1⟩ (by simp [rawFive])

/-- Bumping the entry at row `r` of column `c` by `δ` shifts the inner-loop
sum over column `c` by exactly `δ` times the weight of row `r`, provided
the loop reaches row `r`. -/
lemma colSum_bump (A : MatrixXd) (r c : ℕ) (δ d : ℝ) (n : ℕ) (hr : r < n) :
    colSum (bump A r c δ) d c n = colSum A d c n + δ * Real.exp (-d * r) := by
  rw [colSum_eq_sum, colSum_eq_sum]
  have h : ∀ j : ℕ, (bump A r c δ).entry j c * Real.exp (-d * j)
      = A.entry j c * Real.exp (-d * j)
        + (if j = r then δ * Real.exp (-d * j) else 0) := by
    intro j
    by_cases hj : j = r
    · subst hj
      simp only [bump, and_self, if_true, eq_self_iff_true, if_pos]
      ring
    · simp [bump, hj]
  rw [Finset.sum_congr rfl (fun j _ => h j), Finset.sum_add_distrib,
    Finset.sum_ite_eq' (Finset.range n) r (fun j => δ * Real.exp (-d * (j : ℕ))),
    if_pos (Finset.mem_range.mpr hr)]

/-- C5: for a positive decay factor, bumping an entry in a later row by
`δ > 0` increases the reduced value of its column by strictly less than
bumping an entry in an earlier row of the same column by the same `δ`:
the weight `exp(-decayFactor * j)` is strictly decreasing in the row
index. -/
theorem curveFitting_later_rows_weigh_less (A : MatrixXd) (d δ : ℝ)
    (i j1 j2 : ℕ) (hd : 0 < d) (hδ : 0 < δ) (hrows : 2 ≤ A.rows)
    (hi : i < A.cols) (hj : j1 < j2) (hj2 : j2 < A.rows)
    (v v1 v2 : List ℝ)
    (hv : curveFitting A ⟨d⟩ = Except.ok v)
    (hv1 : curveFitting (bump A j1 i δ) ⟨d⟩ = Except.ok v1)
    (hv2 : curveFitting (bump A j2 i δ) ⟨d⟩ = Except.ok v2) :
    v2.getD i 0 - v.getD i 0 < v1.getD i 0 - v.getD i 0 := by
  have hr0 : 0 < A.rows := by omega
  have hc0 : 0 < A.cols := by omega
  rw [curveFitting_ok A ⟨d⟩ hr0 hc0, Except.ok.injEq] at hv
  rw [curveFitting_ok (bump A j1 i δ) ⟨d⟩ hr0 hc0, Except.ok.injEq] at hv1
  rw [curveFitting_ok (bump A j2 i δ) ⟨d⟩ hr0 hc0, Except.ok.injEq] at hv2
  subst hv hv1 hv2
  rw [getD_map_range hi, getD_map_range (n := (bump A j1 i δ).cols) hi,
    getD_map_range (n := (bump A j2 i δ).cols) hi]
  show reduceEntry (bump A j2 i δ) d i - reduceEntry A d i
    < reduceEntry (bump A j1 i δ) d i - reduceEntry A d i
  rw [reduceEntry, reduceEntry, reduceEntry]
  show colSum (bump A j2 i δ) d i A.rows / (A.rows : ℝ)
      - colSum A d i A.rows / (A.rows : ℝ)
    < colSum (bump A j1 i δ) d i A.rows / (A.rows : ℝ)
      - colSum A d i A.rows / (A.rows : ℝ)
  rw [colSum_bump A j2 i δ d A.rows hj2,
    colSum_bump A j1 i δ d A.rows (by omega), div_sub_div_same, div_sub_div_same,
    add_sub_cancel_left, add_sub_cancel_left]
  have hrowsR : (0 : ℝ) < (A.rows : ℝ) := by exact_mod_cast hr0
  have hcast : (j1 : ℝ) < (j2 : ℝ) := by exact_mod_cast hj
  have hexp : Real.exp (-d * (j2 : ℕ)) < Real.exp (-d * (j1 : ℕ)) := by
    apply Real.exp_lt_exp.mpr
    nlinarith
  have hnum : δ * Real.exp (-d * (j2 : ℕ)) < δ * Real.exp (-d * (j1 : ℕ)) := by
    nlinarith
  exact (div_lt_div_iff_of_pos_right hrowsR).mpr hnum

/-- A concrete two-row, one-column all-zero matrix used by the C5 witness. -/
def twoByOne : MatrixXd := ⟨2, 1, fun _ _ => 0⟩

theorem curveFitting_later_rows_weigh_less_witness :
    ((List.range 1).map (reduceEntry (bump twoByOne 1 0 1) 1)).getD 0 0
        - ((List.range 1).map (reduceEntry twoByOne 1)).getD 0 0
      < ((List.range 1).map (reduceEntry (bump twoByOne 0 0 1) 1)).getD 0 0
        - ((List.range 1).map (reduceEntry twoByOne 1)).getD 0 0 :=
  curveFitting_later_rows_weigh_less twoByOne 1 1 0 0 1 one_pos one_pos
    Nat.le.refl Nat.one_pos Nat.one_pos Nat.one_lt_two _ _ _
    (curveFitting_ok twoByOne ⟨1⟩ two_pos Nat.one_pos)
    (curveFitting_ok (bump twoByOne 0 0 1) ⟨1⟩ two_pos Nat.one_pos)
    (curveFitting_ok (bump twoByOne 1 0 1) ⟨1⟩ two_pos Nat.one_pos)

/-- C3 counterexample: on the empty vector the specification's contract
demands the `EmptyVector` failure, but `averageAndDisplay` contains no
guard: it returns a value (the unconditional division `sum / length`),
so it does not realize the contract at the empty input. -/
theorem averageAndDisplay_empty_counterexample :
    averageSpecContract ([] : List ℝ) = Except.error "EmptyVector" ∧
    Except.ok (averageAndDisplay ([] : List ℝ)) ≠ averageSpecContract ([] : List ℝ) := by
  refine ⟨rfl, ?_⟩
  simp [averageSpecContract]

/-- C3 (amended): `averageAndDisplay` performs the division `sum / length`
unconditionally — there is no emptiness check, so on the empty vector it
still returns a value (`0 / 0`, i.e. NaN in IEEE arithmetic) rather than
failing; on every non-empty vector it agrees with the specification's
Summarizer contract. -/
theorem averageAndDisplay_no_guard (data : List ℝ) :
    averageAndDisplay data = data.sum / data.length ∧
    (data ≠ [] → Except.ok (averageAndDisplay data) = averageSpecContract data) := by
  refine ⟨rfl, fun h => ?_⟩
  rw [averageSpecContract, if_neg (fun h0 => h (List.length_eq_zero.mp h0))]
  rfl

theorem averageAndDisplay_no_guard_witness :
    Except.ok (averageAndDisplay [(4 : ℝ), 6]) = averageSpecContract [(4 : ℝ), 6] :=
  (averageAndDisplay_no_guard [(4 : ℝ), 6]).2 (by simp)

/-- Every viscosity stored in the table lies between `1.0` and `1.9`. -/
lemma table_values_range : ∀ p ∈ thermal_to_viscosity, (1 : ℚ) ≤ p.2 ∧ p.2 ≤ 19/10 := by
  norm_num [thermal_to_viscosity]

/-- C6: on a stored key the strict lookup returns exactly the stored
viscosity and the sentinel lookup returns the same value; on an absent
key the strict lookup fails with the invalid-argument error while the
sentinel lookup returns `-1.0` and never fails. -/
theorem lookup_strict_vs_sentinel (k : ℚ) :
    (∀ v, (k, v) ∈ thermal_to_viscosity →
      lookupViscosity k = Except.ok v ∧ getViscosity k = v) ∧
    ((∀ p ∈ thermal_to_viscosity, p.1 ≠ k) →
      lookupViscosity k = Except.error "Invalid thermal conductivity value" ∧
      getViscosity k = -1) := by
  constructor
  · intro v hv
    rw [thermal_to_viscosity] at hv
    fin_cases hv <;>
      exact ⟨by norm_num [lookupViscosity, findEntry, thermal_to_viscosity],
             by norm_num [getViscosity, findEntry, thermal_to_viscosity]⟩
  · intro habs
    have hnone : findEntry k thermal_to_viscosity = none := findEntry_eq_none.mpr habs
    exact ⟨by simp [lookupViscosity, hnone], by simp [getViscosity, hnone]⟩

theorem lookup_strict_vs_sentinel_witness :
    lookupViscosity (1/10) = Except.ok 1 ∧ getViscosity (35/100) = -1 :=
  ⟨((lookup_strict_vs_sentinel (1/10)).1 1 (by norm_num [thermal_to_viscosity])).1,
   ((lookup_strict_vs_sentinel (35/100)).2 (by norm_num [thermal_to_viscosity])).2⟩

/-- C10: every stored viscosity lies in `[1.0, 1.9]`, so the sentinel
`-1.0` is distinct from every stored value, and `getViscosity` returns
`-1.0` exactly on the keys absent from the table. -/
theorem getViscosity_sentinel_unambiguous (k : ℚ) :
    (∀ p ∈ thermal_to_viscosity, (1 : ℚ) ≤ p.2 ∧ p.2 ≤ 19/10 ∧ p.2 ≠ -1) ∧
    (getViscosity k = -1 ↔ ∀ p ∈ thermal_to_viscosity, p.1 ≠ k) := by
  refine ⟨by norm_num [thermal_to_viscosity], ?_, ?_⟩
  · intro hs
    intro p hp hpk
    rcases hfind : findEntry k thermal_to_viscosity with _ | w
    · exact (findEntry_eq_none.mp hfind p hp) hpk
    · obtain ⟨q, hq, hqk, hqv⟩ := findEntry_some_mem hfind
      have hw : getViscosity k = w := by simp [getViscosity, hfind]
      have h1 : (1 : ℚ) ≤ q.2 := (table_values_range q hq).1
      rw [hqv] at h1
      rw [hw] at hs
      rw [hs] at h1
      linarith
  · intro habs
    simp [getViscosity, findEntry_eq_none.mpr habs]

theorem getViscosity_sentinel_unambiguous_witness :
    getViscosity (35/100) = -1 :=
  ((getViscosity_sentinel_unambiguous (35/100)).2).mpr
    (by norm_num [thermal_to_viscosity])

/-- The nine-sample sequence of the end-to-end example. -/
def exampleSamples : List ℝ := [1, 2, 3, 4, 5, 6, 7, 8, 9]

/-- The matrix `[[1,2,3],[4,5,6],[7,8,9]]` the example reshapes into. -/
def exampleMatrix : MatrixXd := ⟨3, 3, fun i j => exampleSamples.getD (i * 3 + j) 0⟩

/-- C8: with gain 1 and offset 0 the conditioning leaves the samples
`[1,…,9]` unchanged, `formatData` reshapes them into the row-major 3×3
matrix `[[1,2,3],[4,5,6],[7,8,9]]`, `curveFitting` with decay factor 0
produces the column means `[4, 5, 6]`, and their average is exactly 5. -/
theorem pipeline_example :
    exampleSamples.map (conditionSample ⟨1, 0⟩) = exampleSamples ∧
    formatData exampleSamples = Except.ok exampleMatrix ∧
    exampleMatrix.rows = 3 ∧ exampleMatrix.cols = 3 ∧
    exampleMatrix.entry 0 0 = 1 ∧ exampleMatrix.entry 0 1 = 2 ∧
    exampleMatrix.entry 0 2 = 3 ∧ exampleMatrix.entry 1 0 = 4 ∧
    exampleMatrix.entry 1 1 = 5 ∧ exampleMatrix.entry 1 2 = 6 ∧
    exampleMatrix.entry 2 0 = 7 ∧ exampleMatrix.entry 2 1 = 8 ∧
    exampleMatrix.entry 2 2 = 9 ∧
    curveFitting exampleMatrix ⟨0⟩ = Except.ok [4, 5, 6] ∧
    averageAndDisplay [4, 5, 6] = 5 := by
  have e00 : exampleMatrix.entry 0 0 = 1 := rfl
  have e01 : exampleMatrix.entry 0 1 = 2 := rfl
  have e02 : exampleMatrix.entry 0 2 = 3 := rfl
  have e10 : exampleMatrix.entry 1 0 = 4 := rfl
  have e11 : exampleMatrix.entry 1 1 = 5 := rfl
  have e12 : exampleMatrix.entry 1 2 = 6 := rfl
  have e20 : exampleMatrix.entry 2 0 = 7 := rfl
  have e21 : exampleMatrix.entry 2 1 = 8 := rfl
  have e22 : exampleMatrix.entry 2 2 = 9 := rfl
  have r0 : reduceEntry exampleMatrix 0 0 = 4 := by
    show colSum exampleMatrix 0 0 3 / ((3 : ℕ) : ℝ) = 4
    rw [colSum_eq_sum]
    norm_num [Finset.sum_range_succ, e00, e10, e20]
  have r1 : reduceEntry exampleMatrix 0 1 = 5 := by
    show colSum exampleMatrix 0 1 3 / ((3 : ℕ) : ℝ) = 5
    rw [colSum_eq_sum]
    norm_num [Finset.sum_range_succ, e01, e11, e21]
  have r2 : reduceEntry exampleMatrix 0 2 = 6 := by
    show colSum exampleMatrix 0 2 3 / ((3 : ℕ) : ℝ) = 6
    rw [colSum_eq_sum]
    norm_num [Finset.sum_range_succ, e02, e12, e22]
  refine ⟨by simp [exampleSamples, conditionSample], ?_, rfl, rfl,
    e00, e01, e02, e10, e11, e12, e20, e21, e22, ?_, by norm_num [averageAndDisplay]⟩
  · have hsqrt : Nat.sqrt exampleSamples.length = 3 := by norm_num [exampleSamples]
    rw [formatData, if_neg (by norm_num [exampleSamples])]
    simp [hsqrt, exampleMatrix]
  · have hcf : curveFitting exampleMatrix ⟨0⟩ =
        Except.ok ((List.range exampleMatrix.cols).map (reduceEntry exampleMatrix (0 : ℝ))) :=
      curveFitting_ok exampleMatrix ⟨0⟩ (by norm_num [exampleMatrix]) (by norm_num [exampleMatrix])
    rw [hcf]
    have hlist : (List.range exampleMatrix.cols).map (reduceEntry exampleMatrix (0 : ℝ))
        = [4, 5, 6] := by
      show [reduceEntry exampleMatrix 0 0, reduceEntry exampleMatrix 0 1,
        reduceEntry exampleMatrix 0 2] = [4, 5, 6]
      rw [r0, r1, r2]
    rw [hlist]
